/-
Verification of the PySpring bootstrap orchestrator
(`py_spring_core/core/application/py_spring_application.py`).

The orchestrator is embedded shallowly as a trace semantics: every external
invocation the orchestrator performs (container registrations, container
phase calls, lifecycle hooks, route binding, server start) is an `Event`,
and every fallible external call is given an explicit failure-injection
flag in the environment `AppEnv`.  A step of the bootstrap is a
`StepResult`: the list of events it emitted together with the exception it
raised, if any (`none` = returned normally).  Sequencing of Python
statements is `stepSeq` (a raised exception skips the remaining
statements); the `try/finally` of `PySpringApplication.run` is modelled
explicitly in `run` (the finally block always executes, and an exception
raised inside it replaces the body's exception, exactly as in Python).
-/
import Mathlib

/-- The four capability categories the orchestrator dispatches on, in the
iteration order of the `classes_with_handlers` dict:
`Component`, `RestController`, `BeanCollection`, `Properties`. -/
inductive Category where
  | component
  | restController
  | beanCollection
  | properties
deriving DecidableEq, Repr

/-- A candidate entity class.  `id` identifies the class; the four flags
record the outcomes of the `issubclass(_cls, target)` tests against the
four handler keys of `classes_with_handlers`. -/
structure EntityCls where
  id : Nat
  isComponent : Bool
  isRestController : Bool
  isBeanCollection : Bool
  isProperties : Bool
deriving DecidableEq, Repr

/-- Observable events of a bootstrap run: one constructor per external
invocation the orchestrator performs. -/
inductive Event where
  | registerComponent (e : Nat)
  | registerRestController (e : Nat)
  | registerBeanCollection (e : Nat)
  | registerProperties (e : Nat)
  | registerProvider (p : Nat)
  | setProviderContext (p : Nat)
  | typeCheckWarn
  | loadProperties
  | initIocContainer
  | injectDependencies
  | setAllFilePaths
  | validateProviders
  | providerInit (p : Nat)
  | componentInit (c : Nat)
  | componentDestroy (c : Nat)
  | registerRoutes (k : Nat)
  | includeRouter (k : Nat)
  | registerMiddlewares (k : Nat)
  | runServer
deriving DecidableEq, Repr

/-- Exceptions a bootstrap run can raise, tagged by the call that raised. -/
inductive Err where
  | scanError
  | typeSafetyError
  | loadPropertiesError
  | initIocError
  | injectError
  | validateProvidersError
  | providerInitError (p : Nat)
  | componentInitError (c : Nat)
  | componentDestroyError (c : Nat)
  | controllerError (k : Nat)
  | serverError
deriving DecidableEq, Repr

/-- The configured type-checking severity.  `Strict` and `Basic` are the
two members of the source enum handled by the `match` in
`_type_checking`.  Modelled from the spec: the severity set is open
(`{Strict, Basic, …}` in §6), so `Other` stands for any configured
severity other than the two the `match` handles; the Python `match`
statement has no case for it and falls through doing nothing. -/
inductive TypeCheckingMode where
  | Strict
  | Basic
  | Other
deriving DecidableEq, Repr

/-- The lifecycle phases of `ComponentLifeCycle` used by
`_handle_singleton_components_life_cycle`. -/
inductive ComponentLifeCycle where
  | Init
  | Destruction
deriving DecidableEq, Repr

/-- An entity provider: its identity, the entities `get_entities` returns,
and whether its `provider_init` hook raises. -/
structure Provider where
  id : Nat
  entities : List EntityCls
  initFails : Bool
deriving Repr

/-- The environment of one bootstrap run: the constructor-time
configuration together with failure-injection flags for every fallible
external call the orchestrator makes. -/
structure AppEnv where
  entityProviders : List Provider
  scannedClasses : List EntityCls
  scanFails : Bool
  /-- `type_checking()` returns a non-`None` aggregated error iff this is
  `true`. -/
  typeCheckReport : Bool
  typeCheckingMode : TypeCheckingMode
  loadPropertiesFails : Bool
  initIocFails : Bool
  injectFails : Bool
  validateProvidersFails : Bool
  /-- The singleton component instances the container reports from
  `get_singleton_component_instances`. -/
  singletonComponents : List Nat
  componentInitFails : Nat → Bool
  componentDestroyFails : Nat → Bool
  controllers : List Nat
  controllerFails : Nat → Bool
  serverEnabled : Bool
  serverFails : Bool

/-- The outcome of executing a sequence of statements: the events emitted,
and the exception raised (`none` when the sequence returned normally). -/
abbrev StepResult := List Event × Option Err

/-- Python statement sequencing: if `a` raises, `b` never runs; otherwise
the events of both are emitted and `b` decides the outcome. -/
def stepSeq (a b : StepResult) : StepResult :=
  match a.2 with
  | none => (a.1 ++ b.1, b.2)
  | some e => (a.1, some e)

/-- `satisfies e cat` is the result of `issubclass(_cls, target)` for the
handler key of category `cat`. -/
def satisfies (e : EntityCls) : Category → Bool
  | Category.component => e.isComponent
  | Category.restController => e.isRestController
  | Category.beanCollection => e.isBeanCollection
  | Category.properties => e.isProperties

/-- The registration event a handler of category `cat` emits for entity
`e` (the `handler(_cls)` call of `_register_app_entities`). -/
def registerEvent (e : EntityCls) : Category → Event
  | Category.component => Event.registerComponent e.id
  | Category.restController => Event.registerRestController e.id
  | Category.beanCollection => Event.registerBeanCollection e.id
  | Category.properties => Event.registerProperties e.id

/-- The inner loop of `_register_app_entities` for one class: iterate the
`classes_with_handlers` dict in insertion order and invoke the handler of
every category the class satisfies; no early exit, no error. -/
def registerEntityHandlers (e : EntityCls) : List Event :=
  (if satisfies e Category.component then [registerEvent e Category.component] else []) ++
  (if satisfies e Category.restController then [registerEvent e Category.restController] else []) ++
  (if satisfies e Category.beanCollection then [registerEvent e Category.beanCollection] else []) ++
  (if satisfies e Category.properties then [registerEvent e Category.properties] else [])

/-- `_register_app_entities`: classify and register every class of the
iterable, in order. -/
def registerAppEntities : List EntityCls → List Event
  | [] => []
  | e :: rest => registerEntityHandlers e ++ registerAppEntities rest

/-- The loop of `_register_all_entities_from_providers`: for each
provider, run its contributed entities through `_register_app_entities`. -/
def providerEntitiesLoop : List Provider → List Event
  | [] => []
  | p :: rest => registerAppEntities p.entities ++ providerEntitiesLoop rest

/-- `_register_all_entities_from_providers`. -/
def registerAllEntitiesFromProviders (env : AppEnv) : List Event :=
  providerEntitiesLoop env.entityProviders

/-- `_register_entity_providers`: register each provider with the context
and hand it the context back-reference, in order. -/
def registerEntityProviders : List Provider → List Event
  | [] => []
  | p :: rest =>
    Event.registerProvider p.id :: Event.setProviderContext p.id ::
      registerEntityProviders rest

/-- `_scan_classes_for_project`: the delegated scan; emits no modelled
events, raises on scan failure. -/
def scanClassesForProject (env : AppEnv) : StepResult :=
  if env.scanFails then ([], some Err.scanError) else ([], none)

/-- `_type_checking`: if the type-safety check returned an error, `Strict`
re-raises it, `Basic` logs it as a warning, and any other severity falls
through the `match` with no action. -/
def typeChecking (env : AppEnv) : StepResult :=
  if env.typeCheckReport then
    match env.typeCheckingMode with
    | TypeCheckingMode.Strict => ([], some Err.typeSafetyError)
    | TypeCheckingMode.Basic => ([Event.typeCheckWarn], none)
    | TypeCheckingMode.Other => ([], none)
  else ([], none)

/-- A single container method invocation (`load_properties`,
`init_ioc_container`, …): the call itself is the event; it raises `e`
when its failure flag is set. -/
def containerStep (ev : Event) (fails : Bool) (e : Err) : StepResult :=
  if fails then ([ev], some e) else ([ev], none)

/-- `_init_providers`: call `provider_init` on each provider in order; a
raising hook aborts the loop. -/
def initProviders : List Provider → StepResult
  | [] => ([], none)
  | p :: rest =>
    if p.initFails then ([Event.providerInit p.id], some (Err.providerInitError p.id))
    else stepSeq ([Event.providerInit p.id], none) (initProviders rest)

/-- The loop of `_handle_singleton_components_life_cycle`: for each
component instance, invoke the hook selected by the phase; a raising hook
aborts the loop (the source has no per-instance exception handling). -/
def lifeCycleLoop (lc : ComponentLifeCycle) (fInit fDes : Nat → Bool) :
    List Nat → StepResult
  | [] => ([], none)
  | c :: rest =>
    match lc with
    | ComponentLifeCycle.Init =>
      if fInit c then ([Event.componentInit c], some (Err.componentInitError c))
      else stepSeq ([Event.componentInit c], none) (lifeCycleLoop lc fInit fDes rest)
    | ComponentLifeCycle.Destruction =>
      if fDes c then ([Event.componentDestroy c], some (Err.componentDestroyError c))
      else stepSeq ([Event.componentDestroy c], none) (lifeCycleLoop lc fInit fDes rest)

/-- `_handle_singleton_components_life_cycle`. -/
def handleSingletonComponentsLifeCycle (env : AppEnv) (lc : ComponentLifeCycle) :
    StepResult :=
  lifeCycleLoop lc env.componentInitFails env.componentDestroyFails
    env.singletonComponents

/-- The loop of `__init_controllers`: for each controller, populate its
routes, include its router in the FastAPI app (this is the route-binding
event), and register its middlewares. -/
def initControllersLoop (fails : Nat → Bool) : List Nat → StepResult
  | [] => ([], none)
  | k :: rest =>
    if fails k then ([Event.registerRoutes k], some (Err.controllerError k))
    else
      stepSeq
        ([Event.registerRoutes k, Event.includeRouter k, Event.registerMiddlewares k],
          none)
        (initControllersLoop fails rest)

/-- `__configure_logging`: only adjusts the logging sink; no modelled
observable effect. -/
def configureLogging (_env : AppEnv) : StepResult := ([], none)

/-- `__run_server`, guarded by `server_config.enabled` as in `run`. -/
def runServerStep (env : AppEnv) : StepResult :=
  if env.serverEnabled then
    if env.serverFails then ([Event.runServer], some Err.serverError)
    else ([Event.runServer], none)
  else ([], none)

/-- `__init_app`: the straight-line statement sequence of the source, in
source order. -/
def initApp (env : AppEnv) : StepResult :=
  stepSeq (scanClassesForProject env)
    (stepSeq (registerAllEntitiesFromProviders env, (none : Option Err))
      (stepSeq (registerAppEntities env.scannedClasses, none)
        (stepSeq (registerEntityProviders env.entityProviders, none)
          (stepSeq (typeChecking env)
            (stepSeq (containerStep Event.loadProperties env.loadPropertiesFails
                Err.loadPropertiesError)
              (stepSeq (containerStep Event.initIocContainer env.initIocFails
                  Err.initIocError)
                (stepSeq (containerStep Event.injectDependencies env.injectFails
                    Err.injectError)
                  (stepSeq ([Event.setAllFilePaths], none)
                    (stepSeq (containerStep Event.validateProviders
                        env.validateProvidersFails Err.validateProvidersError)
                      (stepSeq (initProviders env.entityProviders)
                        (handleSingletonComponentsLifeCycle env
                          ComponentLifeCycle.Init)))))))))))

/-- The body of the `try` block of `run`: configure logging, initialize
the app, initialize the controllers, optionally start the server. -/
def runBody (env : AppEnv) : StepResult :=
  stepSeq (configureLogging env)
    (stepSeq (initApp env)
      (stepSeq (initControllersLoop env.controllerFails env.controllers)
        (runServerStep env)))

/-- `PySpringApplication.run`: the body wrapped in `try/finally` with the
destruction lifecycle pass in the `finally` block.  The finally block
always executes; per Python semantics an exception it raises replaces the
body's exception, and otherwise the body's exception propagates. -/
def run (env : AppEnv) : StepResult :=
  ((runBody env).1 ++
      (handleSingletonComponentsLifeCycle env ComponentLifeCycle.Destruction).1,
    match (handleSingletonComponentsLifeCycle env ComponentLifeCycle.Destruction).2 with
    | some e => some e
    | none => (runBody env).2)

/-- Recognizer for the four entity-registration events emitted by the
`classes_with_handlers` handlers. -/
def isRegisterEntityEvent : Event → Bool
  | Event.registerComponent _ => true
  | Event.registerRestController _ => true
  | Event.registerBeanCollection _ => true
  | Event.registerProperties _ => true
  | _ => false

/-- Recognizer for the provider-registration events emitted by
`_register_entity_providers`. -/
def isProviderRegistrationEvent : Event → Bool
  | Event.registerProvider _ => true
  | Event.setProviderContext _ => true
  | _ => false

/-- Recognizer for `provider_init` invocation events. -/
def isProviderInitEvent : Event → Bool
  | Event.providerInit _ => true
  | _ => false

/-- Recognizer for destruction-hook invocation events. -/
def isComponentDestroyEvent : Event → Bool
  | Event.componentDestroy _ => true
  | _ => false

/-- The suffix of `__init_app` from the `_type_checking` statement
onward, named so that trace decompositions can refer to it.  It is
syntactically the tail of `initApp`. -/
def initAppTail (env : AppEnv) : StepResult :=
  stepSeq (typeChecking env)
    (stepSeq (containerStep Event.loadProperties env.loadPropertiesFails
        Err.loadPropertiesError)
      (stepSeq (containerStep Event.initIocContainer env.initIocFails
          Err.initIocError)
        (stepSeq (containerStep Event.injectDependencies env.injectFails
            Err.injectError)
          (stepSeq ([Event.setAllFilePaths], none)
            (stepSeq (containerStep Event.validateProviders
                env.validateProvidersFails Err.validateProvidersError)
              (stepSeq (initProviders env.entityProviders)
                (handleSingletonComponentsLifeCycle env
                  ComponentLifeCycle.Init)))))))

/-- A default environment: no providers, no scanned classes, no failures,
no report, server disabled. -/
def baseEnv : AppEnv where
  entityProviders := []
  scannedClasses := []
  scanFails := false
  typeCheckReport := false
  typeCheckingMode := TypeCheckingMode.Other
  loadPropertiesFails := false
  initIocFails := false
  injectFails := false
  validateProvidersFails := false
  singletonComponents := []
  componentInitFails := fun _ => false
  componentDestroyFails := fun _ => false
  controllers := []
  controllerFails := fun _ => false
  serverEnabled := false
  serverFails := false

/-- A run whose injection phase raises, with one singleton component. -/
def envC1w : AppEnv :=
  { baseEnv with singletonComponents := [5], injectFails := true }

/-- A run with two singleton components whose first destruction hook
raises. -/
def envC2 : AppEnv :=
  { baseEnv with
    singletonComponents := [1, 2],
    componentDestroyFails := fun c => c == 1 }

/-- A run with a non-empty type-safety report under `Strict` severity and
one singleton component. -/
def envC3w : AppEnv :=
  { baseEnv with
    typeCheckReport := true,
    typeCheckingMode := TypeCheckingMode.Strict, singletonComponents := [3] }

/-- A clean run with one controller and one singleton component. -/
def envC4w : AppEnv :=
  { baseEnv with controllers := [4], singletonComponents := [6] }

/-- A run with one provider contributing one `Component` entity and one
locally discovered `Component` entity. -/
def envC5w : AppEnv :=
  { baseEnv with
    entityProviders := [⟨7, [⟨9, true, false, false, false⟩], false⟩],
    scannedClasses := [⟨3, true, false, false, false⟩] }

/-- A run with one provider (contributing nothing) and one locally
discovered `Component` entity. -/
def envC6 : AppEnv :=
  { baseEnv with
    entityProviders := [⟨7, [], false⟩],
    scannedClasses := [⟨3, true, false, false, false⟩] }

/-- A clean run with one provider. -/
def envC7w : AppEnv :=
  { baseEnv with entityProviders := [⟨7, [], false⟩] }

/-- Two candidate classes: one satisfying both `Component` and
`RestController`, one satisfying no category. -/
def c8classes : List EntityCls :=
  [⟨1, true, true, false, false⟩, ⟨2, false, false, false, false⟩]

/-- A run with a non-empty report under `Basic` severity, a provider, a
controller, a singleton component, and the server enabled. -/
def envC9w : AppEnv :=
  { baseEnv with
    typeCheckReport := true,
    typeCheckingMode := TypeCheckingMode.Basic, serverEnabled := true,
    singletonComponents := [2], entityProviders := [⟨7, [], false⟩],
    controllers := [4] }

/-! ### Basic algebra of `stepSeq` -/

theorem stepSeq_mk_none (l : List Event) (b : StepResult) :
    stepSeq (l, none) b = (l ++ b.1, b.2) := rfl

theorem stepSeq_mk_some (l : List Event) (e : Err) (b : StepResult) :
    stepSeq (l, some e) b = (l, some e) := rfl

theorem stepSeq_fst_mk_none (l : List Event) (b : StepResult) :
    (stepSeq (l, none) b).1 = l ++ b.1 := rfl

theorem stepSeq_of_none {a : StepResult} (b : StepResult) (h : a.2 = none) :
    stepSeq a b = (a.1 ++ b.1, b.2) := by
  obtain ⟨l, s⟩ := a
  change s = none at h
  rw [h]
  rfl

theorem stepSeq_of_some {a : StepResult} (b : StepResult) {e : Err}
    (h : a.2 = some e) : stepSeq a b = (a.1, some e) := by
  obtain ⟨l, s⟩ := a
  change s = some e at h
  rw [h]
  rfl

theorem stepSeq_snd_none_iff {a b : StepResult} :
    (stepSeq a b).2 = none ↔ a.2 = none ∧ b.2 = none := by
  obtain ⟨l, s⟩ := a
  cases s <;> simp [stepSeq]

theorem mem_stepSeq {x : Event} {a b : StepResult}
    (h : x ∈ (stepSeq a b).1) : x ∈ a.1 ∨ x ∈ b.1 := by
  obtain ⟨l, s⟩ := a
  cases s <;> simp [stepSeq] at h ⊢ <;> tauto

theorem stepSeq_fst_decomp (a b : StepResult) :
    ∃ u, (stepSeq a b).1 = a.1 ++ u ∧ ∀ x ∈ u, x ∈ b.1 := by
  obtain ⟨l, s⟩ := a
  cases s with
  | none => exact ⟨b.1, rfl, fun x hx => hx⟩
  | some e => exact ⟨[], by simp [stepSeq], by simp⟩

/-! ### Peeling `take`-prefixes through appends and `stepSeq` -/

theorem mem_take_append_left {x : Event} {A B : List Event} {n : Nat}
    (h : x ∈ A.take n) : x ∈ (A ++ B).take n := by
  rw [List.take_append_eq_append_take]
  exact List.mem_append_left _ h

theorem take_peel_core {x : Event} {A B : List Event} {n : Nat}
    (h : x ∈ (A ++ B).take n) (hx : x ∉ A) :
    x ∈ B.take (n - A.length) ∧ (∀ y ∈ A, y ∈ (A ++ B).take n) ∧
      (∀ y ∈ B.take (n - A.length), y ∈ (A ++ B).take n) := by
  rw [List.take_append_eq_append_take] at h
  rcases List.mem_append.mp h with h1 | h2
  · exact absurd (List.take_subset _ _ h1) hx
  · have hlen : A.length < n := by
      by_contra hc
      push_neg at hc
      rw [Nat.sub_eq_zero_of_le hc] at h2
      simp at h2
    have hfull : A.take n = A := List.take_of_length_le (le_of_lt hlen)
    refine ⟨h2, ?_, ?_⟩
    · intro y hy
      rw [List.take_append_eq_append_take, hfull]
      exact List.mem_append_left _ hy
    · intro y hy
      rw [List.take_append_eq_append_take]
      exact List.mem_append_right _ hy

theorem take_append_not_right {x : Event} {A B : List Event} {n : Nat}
    (h : x ∈ (A ++ B).take n) (hx : x ∉ B) : x ∈ A.take n := by
  rw [List.take_append_eq_append_take] at h
  rcases List.mem_append.mp h with h1 | h2
  · exact h1
  · exact absurd (List.take_subset _ _ h2) hx

theorem take_peel {x : Event} {a b : StepResult} {n : Nat}
    (h : x ∈ (stepSeq a b).1.take n) (hx : x ∉ a.1) :
    a.2 = none ∧ x ∈ b.1.take (n - a.1.length) ∧
      (∀ y ∈ a.1, y ∈ (stepSeq a b).1.take n) ∧
      (∀ y ∈ b.1.take (n - a.1.length), y ∈ (stepSeq a b).1.take n) := by
  obtain ⟨l, s⟩ := a
  cases s with
  | none =>
      have h' : x ∈ (l ++ b.1).take n := h
      have hx' : x ∉ l := hx
      obtain ⟨h1, h2, h3⟩ := take_peel_core h' hx'
      exact ⟨rfl, h1, h2, h3⟩
  | some e =>
      rw [stepSeq_mk_some] at h
      exact absurd (List.take_subset _ _ h) hx

theorem take_stepSeq_left {x : Event} {a b : StepResult} {n : Nat}
    (h : x ∈ (stepSeq a b).1.take n) (hx : x ∉ b.1) :
    x ∈ a.1.take n ∧ ∀ y ∈ a.1.take n, y ∈ (stepSeq a b).1.take n := by
  obtain ⟨l, s⟩ := a
  cases s with
  | none =>
      have h' : x ∈ (l ++ b.1).take n := h
      refine ⟨take_append_not_right h' hx, ?_⟩
      intro y hy
      exact mem_take_append_left hy
  | some e =>
      rw [stepSeq_mk_some] at h
      exact ⟨h, fun y hy => hy⟩

/-! ### Shapes of the events each phase emits -/

theorem mem_if_singleton {x ev : Event} {c : Bool}
    (h : x ∈ (if c = true then [ev] else [])) : x = ev := by
  split_ifs at h
  · simpa using h
  · simp at h

theorem mem_registerEntityHandlers {x : Event} {e : EntityCls}
    (h : x ∈ registerEntityHandlers e) : isRegisterEntityEvent x = true := by
  simp only [registerEntityHandlers, List.mem_append] at h
  rcases h with ((h | h) | h) | h <;> rw [mem_if_singleton h] <;> rfl

theorem mem_registerAppEntities {x : Event} {l : List EntityCls}
    (h : x ∈ registerAppEntities l) : isRegisterEntityEvent x = true := by
  induction l with
  | nil => simp [registerAppEntities] at h
  | cons e rest ih =>
      simp only [registerAppEntities, List.mem_append] at h
      rcases h with h | h
      · exact mem_registerEntityHandlers h
      · exact ih h

theorem mem_providerEntitiesLoop {x : Event} {l : List Provider}
    (h : x ∈ providerEntitiesLoop l) : isRegisterEntityEvent x = true := by
  induction l with
  | nil => simp [providerEntitiesLoop] at h
  | cons p rest ih =>
      simp only [providerEntitiesLoop, List.mem_append] at h
      rcases h with h | h
      · exact mem_registerAppEntities h
      · exact ih h

theorem mem_registerAllEntitiesFromProviders {x : Event} {env : AppEnv}
    (h : x ∈ registerAllEntitiesFromProviders env) :
    isRegisterEntityEvent x = true :=
  mem_providerEntitiesLoop h

theorem mem_registerEntityProviders {x : Event} {l : List Provider}
    (h : x ∈ registerEntityProviders l) :
    isProviderRegistrationEvent x = true := by
  induction l with
  | nil => simp [registerEntityProviders] at h
  | cons p rest ih =>
      simp only [registerEntityProviders, List.mem_cons] at h
      rcases h with h | h | h
      · rw [h]; rfl
      · rw [h]; rfl
      · exact ih h

theorem mem_typeChecking {x : Event} {env : AppEnv}
    (h : x ∈ (typeChecking env).1) : x = Event.typeCheckWarn := by
  unfold typeChecking at h
  by_cases hr : env.typeCheckReport = true
  · rw [if_pos hr] at h
    cases hm : env.typeCheckingMode <;> rw [hm] at h <;> simp_all
  · rw [if_neg hr] at h
    simp at h

theorem typeChecking_other {env : AppEnv}
    (h : env.typeCheckingMode = TypeCheckingMode.Other) :
    typeChecking env = ([], none) := by
  unfold typeChecking
  rw [h]
  split_ifs <;> rfl

theorem typeChecking_strict {env : AppEnv} (hr : env.typeCheckReport = true)
    (h : env.typeCheckingMode = TypeCheckingMode.Strict) :
    typeChecking env = ([], some Err.typeSafetyError) := by
  unfold typeChecking
  rw [h, if_pos hr]

theorem typeChecking_basic {env : AppEnv} (hr : env.typeCheckReport = true)
    (h : env.typeCheckingMode = TypeCheckingMode.Basic) :
    typeChecking env = ([Event.typeCheckWarn], none) := by
  unfold typeChecking
  rw [h, if_pos hr]

theorem containerStep_fst (ev : Event) (f : Bool) (e : Err) :
    (containerStep ev f e).1 = [ev] := by
  unfold containerStep
  split_ifs <;> rfl

theorem containerStep_of_ok (ev : Event) {f : Bool} (e : Err)
    (h : f = false) : containerStep ev f e = ([ev], none) := by
  unfold containerStep
  rw [h]
  rfl

theorem scanClassesForProject_fst (env : AppEnv) :
    (scanClassesForProject env).1 = [] := by
  unfold scanClassesForProject
  split_ifs <;> rfl

theorem mem_initProviders {x : Event} {l : List Provider}
    (h : x ∈ (initProviders l).1) : isProviderInitEvent x = true := by
  induction l with
  | nil => simp [initProviders] at h
  | cons p rest ih =>
      unfold initProviders at h
      by_cases hf : p.initFails = true
      · rw [if_pos hf] at h
        simp at h
        rw [h]; rfl
      · rw [if_neg hf] at h
        rcases mem_stepSeq h with h1 | h1
        · simp at h1; rw [h1]; rfl
        · exact ih h1

theorem mem_lifeCycleLoop_init {x : Event} {fI fD : Nat → Bool}
    {l : List Nat}
    (h : x ∈ (lifeCycleLoop ComponentLifeCycle.Init fI fD l).1) :
    ∃ c, x = Event.componentInit c := by
  induction l with
  | nil => simp [lifeCycleLoop] at h
  | cons c rest ih =>
      unfold lifeCycleLoop at h
      by_cases hf : fI c = true
      · rw [if_pos hf] at h
        simp at h
        exact ⟨c, h⟩
      · rw [if_neg hf] at h
        rcases mem_stepSeq h with h1 | h1
        · simp at h1; exact ⟨c, h1⟩
        · exact ih h1

theorem mem_lifeCycleLoop_destroy {x : Event} {fI fD : Nat → Bool}
    {l : List Nat}
    (h : x ∈ (lifeCycleLoop ComponentLifeCycle.Destruction fI fD l).1) :
    ∃ c, c ∈ l ∧ x = Event.componentDestroy c := by
  induction l with
  | nil => simp [lifeCycleLoop] at h
  | cons c rest ih =>
      unfold lifeCycleLoop at h
      by_cases hf : fD c = true
      · rw [if_pos hf] at h
        simp at h
        exact ⟨c, by simp, h⟩
      · rw [if_neg hf] at h
        rcases mem_stepSeq h with h1 | h1
        · simp at h1; exact ⟨c, by simp, h1⟩
        · obtain ⟨c', hc', hx'⟩ := ih h1
          exact ⟨c', by simp [hc'], hx'⟩

theorem mem_initControllersLoop {x : Event} {f : Nat → Bool} {l : List Nat}
    (h : x ∈ (initControllersLoop f l).1) :
    ∃ k, x = Event.registerRoutes k ∨ x = Event.includeRouter k ∨
      x = Event.registerMiddlewares k := by
  induction l with
  | nil => simp [initControllersLoop] at h
  | cons k rest ih =>
      unfold initControllersLoop at h
      by_cases hf : f k = true
      · rw [if_pos hf] at h
        simp at h
        exact ⟨k, Or.inl h⟩
      · rw [if_neg hf] at h
        rcases mem_stepSeq h with h1 | h1
        · simp at h1
          rcases h1 with h1 | h1 | h1
          · exact ⟨k, Or.inl h1⟩
          · exact ⟨k, Or.inr (Or.inl h1)⟩
          · exact ⟨k, Or.inr (Or.inr h1)⟩
        · exact ih h1

theorem mem_runServerStep {x : Event} {env : AppEnv}
    (h : x ∈ (runServerStep env).1) : x = Event.runServer := by
  unfold runServerStep at h
  split_ifs at h <;> simp_all

/-! ### Decomposition of `initApp`, `runBody` and `run` -/

theorem stepSeq_snd_mk_none (l : List Event) (b : StepResult) :
    (stepSeq (l, none) b).2 = b.2 := rfl

theorem initApp_eq_tail (env : AppEnv) (h : env.scanFails = false) :
    initApp env =
      (registerAllEntitiesFromProviders env ++
          (registerAppEntities env.scannedClasses ++
            (registerEntityProviders env.entityProviders ++
              (initAppTail env).1)),
        (initAppTail env).2) := by
  have e₁ : scanClassesForProject env = ([], none) := by
    simp [scanClassesForProject, h]
  unfold initApp initAppTail
  rw [e₁, stepSeq_mk_none, stepSeq_mk_none, stepSeq_mk_none, stepSeq_mk_none]
  simp

theorem initApp_fst_scanFail (env : AppEnv) (h : env.scanFails = true) :
    initApp env = ([], some Err.scanError) := by
  have e₁ : scanClassesForProject env = ([], some Err.scanError) := by
    simp [scanClassesForProject, h]
  unfold initApp
  rw [e₁, stepSeq_mk_some]

theorem mem_initAppTail {x : Event} {env : AppEnv}
    (h : x ∈ (initAppTail env).1) :
    x ∈ (typeChecking env).1 ∨ x = Event.loadProperties ∨
      x = Event.initIocContainer ∨ x = Event.injectDependencies ∨
      x = Event.setAllFilePaths ∨ x = Event.validateProviders ∨
      isProviderInitEvent x = true ∨ ∃ c, x = Event.componentInit c := by
  unfold initAppTail at h
  rcases mem_stepSeq h with h | h
  · exact Or.inl h
  rcases mem_stepSeq h with h | h
  · rw [containerStep_fst] at h
    simp at h
    exact Or.inr (Or.inl h)
  rcases mem_stepSeq h with h | h
  · rw [containerStep_fst] at h
    simp at h
    exact Or.inr (Or.inr (Or.inl h))
  rcases mem_stepSeq h with h | h
  · rw [containerStep_fst] at h
    simp at h
    exact Or.inr (Or.inr (Or.inr (Or.inl h)))
  rcases mem_stepSeq h with h | h
  · simp at h
    exact Or.inr (Or.inr (Or.inr (Or.inr (Or.inl h))))
  rcases mem_stepSeq h with h | h
  · rw [containerStep_fst] at h
    simp at h
    exact Or.inr (Or.inr (Or.inr (Or.inr (Or.inr (Or.inl h)))))
  rcases mem_stepSeq h with h | h
  · exact Or.inr (Or.inr (Or.inr (Or.inr (Or.inr (Or.inr
      (Or.inl (mem_initProviders h)))))))
  · unfold handleSingletonComponentsLifeCycle at h
    exact Or.inr (Or.inr (Or.inr (Or.inr (Or.inr (Or.inr
      (Or.inr (mem_lifeCycleLoop_init h)))))))

theorem mem_initApp_shape {x : Event} {env : AppEnv}
    (h : x ∈ (initApp env).1) :
    isRegisterEntityEvent x = true ∨ isProviderRegistrationEvent x = true ∨
      (x ∈ (typeChecking env).1 ∨ x = Event.loadProperties ∨
        x = Event.initIocContainer ∨ x = Event.injectDependencies ∨
        x = Event.setAllFilePaths ∨ x = Event.validateProviders ∨
        isProviderInitEvent x = true ∨ ∃ c, x = Event.componentInit c) := by
  unfold initApp at h
  rcases mem_stepSeq h with h | h
  · rw [scanClassesForProject_fst] at h
    simp at h
  rcases mem_stepSeq h with h | h
  · exact Or.inl (mem_registerAllEntitiesFromProviders h)
  rcases mem_stepSeq h with h | h
  · exact Or.inl (mem_registerAppEntities h)
  rcases mem_stepSeq h with h | h
  · exact Or.inr (Or.inl (mem_registerEntityProviders h))
  · have h' : x ∈ (initAppTail env).1 := h
    exact Or.inr (Or.inr (mem_initAppTail h'))

theorem runBody_fst (env : AppEnv) :
    (runBody env).1 =
      (stepSeq (initApp env)
        (stepSeq (initControllersLoop env.controllerFails env.controllers)
          (runServerStep env))).1 := rfl

theorem runBody_snd (env : AppEnv) :
    (runBody env).2 =
      (stepSeq (initApp env)
        (stepSeq (initControllersLoop env.controllerFails env.controllers)
          (runServerStep env))).2 := rfl

theorem mem_runBody {x : Event} {env : AppEnv} (h : x ∈ (runBody env).1) :
    x ∈ (initApp env).1 ∨
      x ∈ (initControllersLoop env.controllerFails env.controllers).1 ∨
      x ∈ (runServerStep env).1 := by
  rw [runBody_fst] at h
  rcases mem_stepSeq h with h | h
  · exact Or.inl h
  rcases mem_stepSeq h with h | h
  · exact Or.inr (Or.inl h)
  · exact Or.inr (Or.inr h)

theorem run_fst (env : AppEnv) :
    (run env).1 = (runBody env).1 ++
      (handleSingletonComponentsLifeCycle env
        ComponentLifeCycle.Destruction).1 := rfl

theorem run_snd_of_destroy_none {env : AppEnv}
    (h : (handleSingletonComponentsLifeCycle env
        ComponentLifeCycle.Destruction).2 = none) :
    (run env).2 = (runBody env).2 := by
  unfold run
  rw [h]

theorem run_snd_of_destroy_some {env : AppEnv} {e : Err}
    (h : (handleSingletonComponentsLifeCycle env
        ComponentLifeCycle.Destruction).2 = some e) :
    (run env).2 = some e := by
  unfold run
  rw [h]

/-! ### Success and failure shapes of the loops -/

theorem lifeCycleLoop_init_of_ok {fI fD : Nat → Bool} {l : List Nat}
    (h : ∀ c ∈ l, fI c = false) :
    lifeCycleLoop ComponentLifeCycle.Init fI fD l =
      (l.map Event.componentInit, none) := by
  induction l with
  | nil => rfl
  | cons c rest ih =>
      have hc : ¬fI c = true := by simp [h c (by simp)]
      simp only [lifeCycleLoop, if_neg hc]
      rw [ih (fun c' hc' => h c' (by simp [hc']))]
      rfl

theorem lifeCycleLoop_destroy_of_ok {fI fD : Nat → Bool} {l : List Nat}
    (h : ∀ c ∈ l, fD c = false) :
    lifeCycleLoop ComponentLifeCycle.Destruction fI fD l =
      (l.map Event.componentDestroy, none) := by
  induction l with
  | nil => rfl
  | cons c rest ih =>
      have hc : ¬fD c = true := by simp [h c (by simp)]
      simp only [lifeCycleLoop, if_neg hc]
      rw [ih (fun c' hc' => h c' (by simp [hc']))]
      rfl

theorem lifeCycleLoop_init_fst_of_none {fI fD : Nat → Bool} {l : List Nat}
    (h : (lifeCycleLoop ComponentLifeCycle.Init fI fD l).2 = none) :
    (lifeCycleLoop ComponentLifeCycle.Init fI fD l).1 =
      l.map Event.componentInit := by
  induction l with
  | nil => rfl
  | cons c rest ih =>
      by_cases hf : fI c = true
      · simp only [lifeCycleLoop, if_pos hf] at h
        simp at h
      · simp only [lifeCycleLoop, if_neg hf] at h ⊢
        rw [stepSeq_snd_mk_none] at h
        rw [stepSeq_fst_mk_none, ih h]
        rfl

theorem lifeCycleLoop_destroy_fail {fI fD : Nat → Bool} {c : Nat}
    {l₁ l₂ : List Nat} (h₁ : ∀ c' ∈ l₁, fD c' = false) (hc : fD c = true) :
    lifeCycleLoop ComponentLifeCycle.Destruction fI fD (l₁ ++ c :: l₂) =
      (l₁.map Event.componentDestroy ++ [Event.componentDestroy c],
        some (Err.componentDestroyError c)) := by
  induction l₁ with
  | nil => simp [lifeCycleLoop, hc]
  | cons a rest ih =>
      have ha : ¬fD a = true := by simp [h₁ a (by simp)]
      simp only [List.cons_append, lifeCycleLoop, if_neg ha, List.append_eq]
      rw [ih (fun c' hc' => h₁ c' (by simp [hc']))]
      rw [stepSeq_mk_none]
      simp

theorem initProviders_of_ok {l : List Provider}
    (h : ∀ p ∈ l, p.initFails = false) :
    initProviders l = (l.map (fun p => Event.providerInit p.id), none) := by
  induction l with
  | nil => rfl
  | cons p rest ih =>
      have hp : ¬p.initFails = true := by simp [h p (by simp)]
      simp only [initProviders, if_neg hp]
      rw [ih (fun p' hp' => h p' (by simp [hp']))]
      rfl

theorem initProviders_fst_take (l : List Provider) :
    ∃ k, (initProviders l).1 =
      (l.take k).map (fun p => Event.providerInit p.id) := by
  induction l with
  | nil => exact ⟨0, rfl⟩
  | cons p rest ih =>
      by_cases hf : p.initFails = true
      · exact ⟨1, by simp [initProviders, hf]⟩
      · obtain ⟨k, hk⟩ := ih
        refine ⟨k + 1, ?_⟩
        simp only [initProviders, if_neg hf, stepSeq_fst_mk_none, hk]
        simp [List.take_succ_cons]

theorem initControllersLoop_snd_of_ok {f : Nat → Bool} {l : List Nat}
    (h : ∀ k ∈ l, f k = false) : (initControllersLoop f l).2 = none := by
  induction l with
  | nil => rfl
  | cons k rest ih =>
      have hk : ¬f k = true := by simp [h k (by simp)]
      simp only [initControllersLoop, if_neg hk, stepSeq_snd_mk_none]
      exact ih (fun k' hk' => h k' (by simp [hk']))

theorem runServerStep_of_ok {env : AppEnv} (he : env.serverEnabled = true)
    (hf : env.serverFails = false) :
    runServerStep env = ([Event.runServer], none) := by
  unfold runServerStep
  rw [if_pos he, if_neg (by simp [hf])]

theorem count_componentDestroy_map (l : List Nat) (c : Nat) :
    (l.map Event.componentDestroy).count (Event.componentDestroy c) =
      l.count c := by
  induction l with
  | nil => rfl
  | cons a rest ih =>
      by_cases hac : a = c
      · subst hac
        simp [List.count_cons, ih]
      · simp [List.count_cons, ih, hac]

/-! ### Claim theorems -/

theorem not_componentDestroy_in_runBody (env : AppEnv) (c : Nat) :
    Event.componentDestroy c ∉ (runBody env).1 := by
  intro h
  rcases mem_runBody h with h | h | h
  · rcases mem_initApp_shape h with h | h | h | h | h | h | h | h | h | ⟨c', hc'⟩
    · simp [isRegisterEntityEvent] at h
    · simp [isProviderRegistrationEvent] at h
    · have := mem_typeChecking h
      simp at this
    · simp at h
    · simp at h
    · simp at h
    · simp at h
    · simp at h
    · simp [isProviderInitEvent] at h
    · simp at hc'
  · obtain ⟨k, hk⟩ := mem_initControllersLoop h
    rcases hk with hk | hk | hk <;> simp at hk
  · have := mem_runServerStep h
    simp at this

/-- C1: the destroy phase of `run` — invoking the destruction hook of
every currently registered singleton component — happens exactly once per
run, whether the body of `run` completed (including reaching the server
phase) or aborted at any modelled step with an error, provided no
destruction hook itself raises: the destruction hook of each registered
component appears in the run's trace exactly once. -/
theorem destroy_phase_exactly_once (env : AppEnv) (c : Nat)
    (hnd : env.singletonComponents.Nodup)
    (hc : c ∈ env.singletonComponents)
    (hok : ∀ c' ∈ env.singletonComponents,
      env.componentDestroyFails c' = false) :
    (run env).1.count (Event.componentDestroy c) = 1 := by
  rw [run_fst, List.count_append]
  have hbody : (runBody env).1.count (Event.componentDestroy c) = 0 :=
    List.count_eq_zero.mpr (not_componentDestroy_in_runBody env c)
  have hdes : handleSingletonComponentsLifeCycle env
      ComponentLifeCycle.Destruction =
      (env.singletonComponents.map Event.componentDestroy, none) := by
    unfold handleSingletonComponentsLifeCycle
    exact lifeCycleLoop_destroy_of_ok hok
  rw [hbody, hdes]
  simp [count_componentDestroy_map, List.count_eq_one_of_mem hnd hc]

/-- C1 witness: a run aborted by an injection failure still destroys its
single registered component exactly once. -/
theorem destroy_phase_exactly_once_witness :
    envC1w.singletonComponents.Nodup ∧
      5 ∈ envC1w.singletonComponents ∧
      (∀ c' ∈ envC1w.singletonComponents,
        envC1w.componentDestroyFails c' = false) ∧
      (run envC1w).1.count (Event.componentDestroy 5) = 1 :=
  ⟨by decide, by decide, by decide,
    destroy_phase_exactly_once envC1w 5 (by decide) (by decide) (by decide)⟩

/-- C2 counterexample: in `envC2` the first component's destruction hook
raises; the second component's destruction hook is then never attempted,
and the teardown error propagates out of `run` even though the body of
the run raised nothing — the per-instance failure is not swallowed. -/
theorem teardown_failure_not_swallowed_cex :
    Event.componentDestroy 1 ∈ (run envC2).1 ∧
      Event.componentDestroy 2 ∉ (run envC2).1 ∧
      (runBody envC2).2 = none ∧
      (run envC2).2 = some (Err.componentDestroyError 1) := by decide

/-- C2 (amended): if a singleton component's destruction hook raises
during the destroy phase, the teardown loop stops there: the destruction
hook is not attempted on any later component, and the teardown exception
propagates out of `run` (replacing any error of the run body). -/
theorem teardown_failure_propagates (env : AppEnv) (c : Nat)
    (l₁ l₂ : List Nat)
    (hcomps : env.singletonComponents = l₁ ++ c :: l₂)
    (hnd : env.singletonComponents.Nodup)
    (h₁ : ∀ c' ∈ l₁, env.componentDestroyFails c' = false)
    (hc : env.componentDestroyFails c = true) :
    (run env).2 = some (Err.componentDestroyError c) ∧
      ∀ c' ∈ l₂, Event.componentDestroy c' ∉ (run env).1 := by
  have hdes : handleSingletonComponentsLifeCycle env
      ComponentLifeCycle.Destruction =
      (l₁.map Event.componentDestroy ++ [Event.componentDestroy c],
        some (Err.componentDestroyError c)) := by
    unfold handleSingletonComponentsLifeCycle
    rw [hcomps]
    exact lifeCycleLoop_destroy_fail h₁ hc
  constructor
  · exact run_snd_of_destroy_some (by rw [hdes])
  · intro c' hc' hmem
    rw [run_fst, hdes] at hmem
    rcases List.mem_append.mp hmem with h | h
    · exact not_componentDestroy_in_runBody env c' h
    · rw [hcomps, List.nodup_append] at hnd
      obtain ⟨-, hnd2, hdisj⟩ := hnd
      simp at h
      rcases h with h | h
      · exact hdisj h (List.mem_cons_of_mem _ hc')
      · subst h
        exact (List.nodup_cons.mp hnd2).1 hc'

/-- C2 (amended) witness: the concrete two-component run of `envC2`. -/
theorem teardown_failure_propagates_witness :
    envC2.singletonComponents = [] ++ 1 :: [2] ∧
      envC2.singletonComponents.Nodup ∧
      (∀ c' ∈ ([] : List Nat), envC2.componentDestroyFails c' = false) ∧
      envC2.componentDestroyFails 1 = true ∧
      ((run envC2).2 = some (Err.componentDestroyError 1) ∧
        ∀ c' ∈ [2], Event.componentDestroy c' ∉ (run envC2).1) :=
  ⟨by decide, by decide, by decide, by decide,
    teardown_failure_propagates envC2 1 [] [2] (by decide) (by decide)
      (by decide) (by decide)⟩

/-- C3: under `Strict` severity with a non-empty type-safety report, the
bootstrap aborts before property loading (`load_properties` is never
invoked), the destroy phase still runs for every registered component,
and the type-safety error propagates out of `run` after teardown. -/
theorem strict_report_aborts_before_properties (env : AppEnv)
    (hscan : env.scanFails = false)
    (hrep : env.typeCheckReport = true)
    (hmode : env.typeCheckingMode = TypeCheckingMode.Strict)
    (hok : ∀ c ∈ env.singletonComponents,
      env.componentDestroyFails c = false) :
    Event.loadProperties ∉ (run env).1 ∧
      (∀ c ∈ env.singletonComponents,
        Event.componentDestroy c ∈ (run env).1) ∧
      (run env).2 = some Err.typeSafetyError := by
  have htc : typeChecking env = ([], some Err.typeSafetyError) :=
    typeChecking_strict hrep hmode
  have htail : initAppTail env = ([], some Err.typeSafetyError) := by
    unfold initAppTail
    rw [htc, stepSeq_mk_some]
  have happ : initApp env =
      (registerAllEntitiesFromProviders env ++
          (registerAppEntities env.scannedClasses ++
            (registerEntityProviders env.entityProviders ++ [])),
        some Err.typeSafetyError) := by
    rw [initApp_eq_tail env hscan, htail]
  have hdes : handleSingletonComponentsLifeCycle env
      ComponentLifeCycle.Destruction =
      (env.singletonComponents.map Event.componentDestroy, none) := by
    unfold handleSingletonComponentsLifeCycle
    exact lifeCycleLoop_destroy_of_ok hok
  have hsnd : (initApp env).2 = some Err.typeSafetyError := by rw [happ]
  refine ⟨?_, ?_, ?_⟩
  · intro hmem
    rw [run_fst] at hmem
    rcases List.mem_append.mp hmem with h | h
    · rcases mem_runBody h with h | h | h
      · rw [happ] at h
        rcases List.mem_append.mp h with h | h
        · have := mem_registerAllEntitiesFromProviders h
          simp [isRegisterEntityEvent] at this
        rcases List.mem_append.mp h with h | h
        · have := mem_registerAppEntities h
          simp [isRegisterEntityEvent] at this
        rcases List.mem_append.mp h with h | h
        · have := mem_registerEntityProviders h
          simp [isProviderRegistrationEvent] at this
        · simp at h
      · obtain ⟨k, hk⟩ := mem_initControllersLoop h
        rcases hk with hk | hk | hk <;> simp at hk
      · have := mem_runServerStep h
        simp at this
    · rw [hdes] at h
      simp at h
  · intro c hcmem
    rw [run_fst, hdes]
    refine List.mem_append_right _ ?_
    simp [hcmem]
  · rw [run_snd_of_destroy_none (by rw [hdes]), runBody_snd,
      stepSeq_of_some _ hsnd]

/-- C3 witness: the concrete `Strict` run of `envC3w`. -/
theorem strict_report_aborts_before_properties_witness :
    envC3w.scanFails = false ∧ envC3w.typeCheckReport = true ∧
      envC3w.typeCheckingMode = TypeCheckingMode.Strict ∧
      (∀ c ∈ envC3w.singletonComponents,
        envC3w.componentDestroyFails c = false) ∧
      (Event.loadProperties ∉ (run envC3w).1 ∧
        (∀ c ∈ envC3w.singletonComponents,
          Event.componentDestroy c ∈ (run envC3w).1) ∧
        (run envC3w).2 = some Err.typeSafetyError) :=
  ⟨by decide, by decide, by decide, by decide,
    strict_report_aborts_before_properties envC3w (by decide) (by decide)
      (by decide) (by decide)⟩

theorem mem_stepSeq_left {x : Event} {a : StepResult} (b : StepResult)
    (hx : x ∈ a.1) : x ∈ (stepSeq a b).1 := by
  obtain ⟨l, s⟩ := a
  cases s <;> simp [stepSeq] at hx ⊢ <;> tauto

theorem mem_stepSeq_right {x : Event} {a b : StepResult} (ha : a.2 = none)
    (hx : x ∈ b.1) : x ∈ (stepSeq a b).1 := by
  rw [stepSeq_of_none _ ha]
  exact List.mem_append_right _ hx

/-- C4: no route group's router is included into the HTTP application
before dependency injection has completed for the whole entity graph and
every registered singleton component's initialization hook has been
invoked: any prefix of the run's trace that contains a router-inclusion
event already contains the injection event and the initialization event
of every registered singleton component. -/
theorem routes_bound_after_injection_and_init (env : AppEnv) (n k : Nat)
    (h : Event.includeRouter k ∈ ((run env).1.take n)) :
    Event.injectDependencies ∈ ((run env).1.take n) ∧
      ∀ c ∈ env.singletonComponents,
        Event.componentInit c ∈ ((run env).1.take n) := by
  have hxD : Event.includeRouter k ∉
      (handleSingletonComponentsLifeCycle env
        ComponentLifeCycle.Destruction).1 := by
    intro hx
    unfold handleSingletonComponentsLifeCycle at hx
    obtain ⟨c, -, hc⟩ := mem_lifeCycleLoop_destroy hx
    simp at hc
  rw [run_fst] at h
  have hbody : Event.includeRouter k ∈ (runBody env).1.take n :=
    take_append_not_right h hxD
  have lift₀ : ∀ y ∈ (runBody env).1.take n, y ∈ (run env).1.take n := by
    intro y hy
    rw [run_fst]
    exact mem_take_append_left hy
  have hxApp : Event.includeRouter k ∉ (initApp env).1 := by
    intro hx
    rcases mem_initApp_shape hx with
      h' | h' | h' | h' | h' | h' | h' | h' | h' | ⟨c', hc'⟩
    · simp [isRegisterEntityEvent] at h'
    · simp [isProviderRegistrationEvent] at h'
    · have := mem_typeChecking h'
      simp at this
    · simp at h'
    · simp at h'
    · simp at h'
    · simp at h'
    · simp at h'
    · simp [isProviderInitEvent] at h'
    · simp at hc'
  rw [runBody_fst] at hbody
  obtain ⟨hsnd, -, hallApp, -⟩ := take_peel hbody hxApp
  have hscan : env.scanFails = false := by
    by_contra hs
    rw [initApp_fst_scanFail env (by simpa using hs)] at hsnd
    simp at hsnd
  have happ := initApp_eq_tail env hscan
  have htail2 : (initAppTail env).2 = none := by
    rw [happ] at hsnd
    exact hsnd
  unfold initAppTail at htail2
  rw [stepSeq_snd_none_iff] at htail2
  obtain ⟨htc, htail2⟩ := htail2
  rw [stepSeq_snd_none_iff] at htail2
  obtain ⟨hload, htail2⟩ := htail2
  rw [stepSeq_snd_none_iff] at htail2
  obtain ⟨hioc, htail2⟩ := htail2
  rw [stepSeq_snd_none_iff] at htail2
  obtain ⟨hinj, htail2⟩ := htail2
  rw [stepSeq_snd_none_iff] at htail2
  obtain ⟨hset, htail2⟩ := htail2
  rw [stepSeq_snd_none_iff] at htail2
  obtain ⟨hval, htail2⟩ := htail2
  rw [stepSeq_snd_none_iff] at htail2
  obtain ⟨hprov, hlc⟩ := htail2
  have hinjMem : Event.injectDependencies ∈ (initAppTail env).1 := by
    unfold initAppTail
    apply mem_stepSeq_right htc
    apply mem_stepSeq_right hload
    apply mem_stepSeq_right hioc
    apply mem_stepSeq_left
    rw [containerStep_fst]
    simp
  have hcompMem : ∀ c ∈ env.singletonComponents,
      Event.componentInit c ∈ (initAppTail env).1 := by
    intro c hcm
    unfold initAppTail
    apply mem_stepSeq_right htc
    apply mem_stepSeq_right hload
    apply mem_stepSeq_right hioc
    apply mem_stepSeq_right hinj
    apply mem_stepSeq_right hset
    apply mem_stepSeq_right hval
    apply mem_stepSeq_right hprov
    unfold handleSingletonComponentsLifeCycle at hlc ⊢
    rw [lifeCycleLoop_init_fst_of_none hlc]
    simp [hcm]
  have liftApp : ∀ y ∈ (initAppTail env).1, y ∈ (run env).1.take n := by
    intro y hy
    apply lift₀
    rw [runBody_fst]
    apply hallApp
    rw [happ]
    refine List.mem_append_right _ (List.mem_append_right _
      (List.mem_append_right _ hy))
  exact ⟨liftApp _ hinjMem, fun c hcm => liftApp _ (hcompMem c hcm)⟩

/-- C4 witness: the concrete clean run of `envC4w`, at the trace prefix
that first contains the router inclusion. -/
theorem routes_bound_after_injection_and_init_witness :
    Event.includeRouter 4 ∈ ((run envC4w).1.take 8) ∧
      (Event.injectDependencies ∈ ((run envC4w).1.take 8) ∧
        ∀ c ∈ envC4w.singletonComponents,
          Event.componentInit c ∈ ((run envC4w).1.take 8)) :=
  ⟨by decide, routes_bound_after_injection_and_init envC4w 8 4 (by decide)⟩

theorem providerReg_not_entity {x : Event}
    (h : isProviderRegistrationEvent x = true) :
    isRegisterEntityEvent x = false := by
  cases x <;> simp_all [isProviderRegistrationEvent, isRegisterEntityEvent]

theorem providerInit_not_entity {x : Event}
    (h : isProviderInitEvent x = true) : isRegisterEntityEvent x = false := by
  cases x <;> simp_all [isProviderInitEvent, isRegisterEntityEvent]

theorem providerInit_not_providerReg {x : Event}
    (h : isProviderInitEvent x = true) :
    isProviderRegistrationEvent x = false := by
  cases x <;> simp_all [isProviderInitEvent, isProviderRegistrationEvent]

theorem tail_event_not_reg {x : Event} {env : AppEnv}
    (h : x ∈ (initAppTail env).1) :
    isRegisterEntityEvent x = false ∧ isProviderRegistrationEvent x = false := by
  rcases mem_initAppTail h with h | h | h | h | h | h | h | ⟨c, h⟩
  · rw [mem_typeChecking h]
    exact ⟨rfl, rfl⟩
  · rw [h]; exact ⟨rfl, rfl⟩
  · rw [h]; exact ⟨rfl, rfl⟩
  · rw [h]; exact ⟨rfl, rfl⟩
  · rw [h]; exact ⟨rfl, rfl⟩
  · rw [h]; exact ⟨rfl, rfl⟩
  · exact ⟨providerInit_not_entity h, providerInit_not_providerReg h⟩
  · rw [h]; exact ⟨rfl, rfl⟩

theorem afterApp_not_reg {x : Event} {env : AppEnv}
    (h : x ∈ (stepSeq (initControllersLoop env.controllerFails
          env.controllers) (runServerStep env)).1 ∨
      x ∈ (handleSingletonComponentsLifeCycle env
          ComponentLifeCycle.Destruction).1) :
    isRegisterEntityEvent x = false ∧ isProviderRegistrationEvent x = false := by
  rcases h with h | h
  · rcases mem_stepSeq h with h | h
    · obtain ⟨k, hk⟩ := mem_initControllersLoop h
      rcases hk with hk | hk | hk <;> rw [hk] <;> exact ⟨rfl, rfl⟩
    · rw [mem_runServerStep h]
      exact ⟨rfl, rfl⟩
  · unfold handleSingletonComponentsLifeCycle at h
    obtain ⟨c, -, hc⟩ := mem_lifeCycleLoop_destroy h
    rw [hc]
    exact ⟨rfl, rfl⟩

/-- C5: every entity contributed by a configured entity provider is
classified and registered before any locally discovered entity: the trace
of a run whose scan succeeds starts with all provider-contributed entity
registrations, immediately followed by all local entity registrations,
and no entity registration occurs anywhere later in the trace. -/
theorem provider_entities_registered_first (env : AppEnv)
    (hscan : env.scanFails = false) :
    ∃ rest, (run env).1 =
        registerAllEntitiesFromProviders env ++
          (registerAppEntities env.scannedClasses ++ rest) ∧
      ∀ x ∈ rest, isRegisterEntityEvent x = false := by
  obtain ⟨u, hu, huB⟩ := stepSeq_fst_decomp (initApp env)
    (stepSeq (initControllersLoop env.controllerFails env.controllers)
      (runServerStep env))
  have happ1 : (initApp env).1 =
      registerAllEntitiesFromProviders env ++
        (registerAppEntities env.scannedClasses ++
          (registerEntityProviders env.entityProviders ++
            (initAppTail env).1)) := by
    rw [initApp_eq_tail env hscan]
  refine ⟨registerEntityProviders env.entityProviders ++
      ((initAppTail env).1 ++ (u ++ (handleSingletonComponentsLifeCycle env
        ComponentLifeCycle.Destruction).1)), ?_, ?_⟩
  · rw [run_fst, runBody_fst, hu, happ1]
    simp [List.append_assoc]
  · intro x hx
    rcases List.mem_append.mp hx with hx | hx
    · exact providerReg_not_entity (mem_registerEntityProviders hx)
    rcases List.mem_append.mp hx with hx | hx
    · exact (tail_event_not_reg hx).1
    rcases List.mem_append.mp hx with hx | hx
    · exact (afterApp_not_reg (Or.inl (huB x hx))).1
    · exact (afterApp_not_reg (Or.inr hx)).1

/-- C5 witness: the concrete run of `envC5w` (one provider entity, one
local entity). -/
theorem provider_entities_registered_first_witness :
    envC5w.scanFails = false ∧
      ∃ rest, (run envC5w).1 =
          registerAllEntitiesFromProviders envC5w ++
            (registerAppEntities envC5w.scannedClasses ++ rest) ∧
        ∀ x ∈ rest, isRegisterEntityEvent x = false :=
  ⟨by decide, provider_entities_registered_first envC5w (by decide)⟩

/-- C6 counterexample: in `envC6` the locally discovered entity is
classified and registered as the very first event of the run, while the
provider itself is registered with the container (and handed the context)
only afterwards — not before local registration as the claim states. -/
theorem providers_integrated_before_locals_cex :
    Event.registerComponent 3 ∈ ((run envC6).1.take 1) ∧
      Event.registerProvider 7 ∉ ((run envC6).1.take 1) ∧
      Event.registerProvider 7 ∈ (run envC6).1 ∧
      Event.setProviderContext 7 ∉ ((run envC6).1.take 1) ∧
      Event.setProviderContext 7 ∈ (run envC6).1 := by decide

/-- C6 (amended): every configured entity provider is registered with the
container and handed the container back-reference immediately after the
locally discovered entities are classified and registered — not before
them — and before the type-checking gate, property loading and every
later phase: after the provider-entity and local registrations the trace
continues with exactly the provider registrations and context hand-offs,
and no provider registration occurs anywhere later in the trace. -/
theorem providers_registered_after_local_classification (env : AppEnv)
    (hscan : env.scanFails = false) :
    ∃ rest, (run env).1 =
        registerAllEntitiesFromProviders env ++
          (registerAppEntities env.scannedClasses ++
            (registerEntityProviders env.entityProviders ++ rest)) ∧
      ∀ x ∈ rest, isProviderRegistrationEvent x = false := by
  obtain ⟨u, hu, huB⟩ := stepSeq_fst_decomp (initApp env)
    (stepSeq (initControllersLoop env.controllerFails env.controllers)
      (runServerStep env))
  have happ1 : (initApp env).1 =
      registerAllEntitiesFromProviders env ++
        (registerAppEntities env.scannedClasses ++
          (registerEntityProviders env.entityProviders ++
            (initAppTail env).1)) := by
    rw [initApp_eq_tail env hscan]
  refine ⟨(initAppTail env).1 ++ (u ++ (handleSingletonComponentsLifeCycle
      env ComponentLifeCycle.Destruction).1), ?_, ?_⟩
  · rw [run_fst, runBody_fst, hu, happ1]
    simp [List.append_assoc]
  · intro x hx
    rcases List.mem_append.mp hx with hx | hx
    · exact (tail_event_not_reg hx).2
    rcases List.mem_append.mp hx with hx | hx
    · exact (afterApp_not_reg (Or.inl (huB x hx))).2
    · exact (afterApp_not_reg (Or.inr hx)).2

/-- C6 (amended) witness: the concrete run of `envC6`. -/
theorem providers_registered_after_local_classification_witness :
    envC6.scanFails = false ∧
      ∃ rest, (run envC6).1 =
          registerAllEntitiesFromProviders envC6 ++
            (registerAppEntities envC6.scannedClasses ++
              (registerEntityProviders envC6.entityProviders ++ rest)) ∧
        ∀ x ∈ rest, isProviderRegistrationEvent x = false :=
  ⟨by decide, providers_registered_after_local_classification envC6
    (by decide)⟩

theorem stepSeq_fst_of_none {a : StepResult} (b : StepResult)
    (h : a.2 = none) : (stepSeq a b).1 = a.1 ++ b.1 := by
  rw [stepSeq_of_none _ h]

theorem stepSeq_fst_of_some {a : StepResult} (b : StepResult) {e : Err}
    (h : a.2 = some e) : (stepSeq a b).1 = a.1 := by
  rw [stepSeq_of_some _ h]

theorem entity_not_providerInit {x : Event}
    (h : isRegisterEntityEvent x = true) : isProviderInitEvent x = false := by
  cases x <;> simp_all [isRegisterEntityEvent, isProviderInitEvent]

theorem providerReg_not_providerInit {x : Event}
    (h : isProviderRegistrationEvent x = true) :
    isProviderInitEvent x = false := by
  cases x <;> simp_all [isProviderRegistrationEvent, isProviderInitEvent]

theorem filter_providerInit_initAppTail (env : AppEnv) :
    ∃ k, (initAppTail env).1.filter isProviderInitEvent =
      ((env.entityProviders.take k).map
        (fun p => Event.providerInit p.id)) := by
  have htc : (typeChecking env).1.filter isProviderInitEvent = [] := by
    apply List.filter_eq_nil_iff.mpr
    intro a ha
    rw [mem_typeChecking ha]
    simp [isProviderInitEvent]
  have hload : (containerStep Event.loadProperties env.loadPropertiesFails
      Err.loadPropertiesError).1.filter isProviderInitEvent = [] := by
    rw [containerStep_fst]
    rfl
  have hioc : (containerStep Event.initIocContainer env.initIocFails
      Err.initIocError).1.filter isProviderInitEvent = [] := by
    rw [containerStep_fst]
    rfl
  have hinj : (containerStep Event.injectDependencies env.injectFails
      Err.injectError).1.filter isProviderInitEvent = [] := by
    rw [containerStep_fst]
    rfl
  have hval : (containerStep Event.validateProviders
      env.validateProvidersFails Err.validateProvidersError).1.filter
      isProviderInitEvent = [] := by
    rw [containerStep_fst]
    rfl
  have hself : (initProviders env.entityProviders).1.filter
      isProviderInitEvent = (initProviders env.entityProviders).1 :=
    List.filter_eq_self.mpr (fun a ha => mem_initProviders ha)
  unfold initAppTail
  cases h1 : (typeChecking env).2 with
  | some e => exact ⟨0, by rw [stepSeq_fst_of_some _ h1, htc]; simp⟩
  | none =>
  rw [stepSeq_fst_of_none _ h1, List.filter_append, htc, List.nil_append]
  cases h2 : (containerStep Event.loadProperties env.loadPropertiesFails
      Err.loadPropertiesError).2 with
  | some e => exact ⟨0, by rw [stepSeq_fst_of_some _ h2, hload]; simp⟩
  | none =>
  rw [stepSeq_fst_of_none _ h2, List.filter_append, hload, List.nil_append]
  cases h3 : (containerStep Event.initIocContainer env.initIocFails
      Err.initIocError).2 with
  | some e => exact ⟨0, by rw [stepSeq_fst_of_some _ h3, hioc]; simp⟩
  | none =>
  rw [stepSeq_fst_of_none _ h3, List.filter_append, hioc, List.nil_append]
  cases h4 : (containerStep Event.injectDependencies env.injectFails
      Err.injectError).2 with
  | some e => exact ⟨0, by rw [stepSeq_fst_of_some _ h4, hinj]; simp⟩
  | none =>
  rw [stepSeq_fst_of_none _ h4, List.filter_append, hinj, List.nil_append]
  rw [stepSeq_fst_mk_none, List.filter_append]
  rw [show ([Event.setAllFilePaths].filter isProviderInitEvent) = [] from rfl,
    List.nil_append]
  cases h5 : (containerStep Event.validateProviders
      env.validateProvidersFails Err.validateProvidersError).2 with
  | some e => exact ⟨0, by rw [stepSeq_fst_of_some _ h5, hval]; simp⟩
  | none =>
  rw [stepSeq_fst_of_none _ h5, List.filter_append, hval, List.nil_append]
  cases hsP : (initProviders env.entityProviders).2 with
  | none =>
      rw [stepSeq_fst_of_none _ hsP, List.filter_append]
      have hlc : (handleSingletonComponentsLifeCycle env
          ComponentLifeCycle.Init).1.filter isProviderInitEvent = [] := by
        apply List.filter_eq_nil_iff.mpr
        intro a ha
        unfold handleSingletonComponentsLifeCycle at ha
        obtain ⟨c, hc⟩ := mem_lifeCycleLoop_init ha
        rw [hc]
        simp [isProviderInitEvent]
      rw [hlc, List.append_nil, hself]
      exact initProviders_fst_take env.entityProviders
  | some e =>
      rw [stepSeq_fst_of_some _ hsP, hself]
      exact initProviders_fst_take env.entityProviders

/-- C7: provider initialization hooks run only after the container has
validated all registered providers — which itself happens only after
container initialization and dependency injection — and they run in
provider-registration order: any trace prefix containing some provider's
init hook already contains the validation, injection and
container-initialization events, and the provider-init events of the
whole trace are exactly the hooks of a leading portion of the configured
providers, in registration order. -/
theorem provider_init_after_validation (env : AppEnv) :
    (∀ n p, Event.providerInit p ∈ ((run env).1.take n) →
        Event.validateProviders ∈ ((run env).1.take n) ∧
        Event.injectDependencies ∈ ((run env).1.take n) ∧
        Event.initIocContainer ∈ ((run env).1.take n)) ∧
      ∃ k, (run env).1.filter isProviderInitEvent =
        ((env.entityProviders.take k).map
          (fun p => Event.providerInit p.id)) := by
  constructor
  · intro n p hmem
    have hxD : Event.providerInit p ∉
        (handleSingletonComponentsLifeCycle env
          ComponentLifeCycle.Destruction).1 := by
      intro hx
      unfold handleSingletonComponentsLifeCycle at hx
      obtain ⟨c, -, hc⟩ := mem_lifeCycleLoop_destroy hx
      simp at hc
    rw [run_fst] at hmem
    have hbody := take_append_not_right hmem hxD
    have lift₀ : ∀ y ∈ (runBody env).1.take n, y ∈ (run env).1.take n := by
      intro y hy
      rw [run_fst]
      exact mem_take_append_left hy
    rw [runBody_fst] at hbody
    have hxCS : Event.providerInit p ∉
        (stepSeq (initControllersLoop env.controllerFails env.controllers)
          (runServerStep env)).1 := by
      intro hx
      rcases mem_stepSeq hx with hx | hx
      · obtain ⟨j, hj⟩ := mem_initControllersLoop hx
        rcases hj with hj | hj | hj <;> simp at hj
      · have := mem_runServerStep hx
        simp at this
    obtain ⟨hApp, liftS⟩ := take_stepSeq_left hbody hxCS
    have liftApp : ∀ y ∈ (initApp env).1.take n,
        y ∈ (run env).1.take n := by
      intro y hy
      apply lift₀
      rw [runBody_fst]
      exact liftS y hy
    by_cases hscan : env.scanFails = true
    · rw [initApp_fst_scanFail env hscan] at hApp
      simp at hApp
    replace hscan : env.scanFails = false := by simpa using hscan
    have happ1 : (initApp env).1 =
        registerAllEntitiesFromProviders env ++
          (registerAppEntities env.scannedClasses ++
            (registerEntityProviders env.entityProviders ++
              (initAppTail env).1)) := by
      rw [initApp_eq_tail env hscan]
    rw [happ1] at hApp
    have hxA : Event.providerInit p ∉
        registerAllEntitiesFromProviders env := by
      intro hx
      have := mem_registerAllEntitiesFromProviders hx
      simp [isRegisterEntityEvent] at this
    obtain ⟨hApp, -, liftA⟩ := take_peel_core hApp hxA
    have hxB : Event.providerInit p ∉
        registerAppEntities env.scannedClasses := by
      intro hx
      have := mem_registerAppEntities hx
      simp [isRegisterEntityEvent] at this
    obtain ⟨hApp, -, liftB⟩ := take_peel_core hApp hxB
    have hxC : Event.providerInit p ∉
        registerEntityProviders env.entityProviders := by
      intro hx
      have := mem_registerEntityProviders hx
      simp [isProviderRegistrationEvent] at this
    obtain ⟨hApp, -, liftC⟩ := take_peel_core hApp hxC
    have liftT : ∀ y, y ∈ ((initAppTail env).1.take
        (n - (registerAllEntitiesFromProviders env).length -
          (registerAppEntities env.scannedClasses).length -
          (registerEntityProviders env.entityProviders).length)) →
        y ∈ (run env).1.take n := by
      intro y hy
      apply liftApp
      rw [happ1]
      exact liftA _ (liftB _ (liftC _ hy))
    unfold initAppTail at hApp
    have hxtc : Event.providerInit p ∉ (typeChecking env).1 := by
      intro hx
      have := mem_typeChecking hx
      simp at this
    obtain ⟨-, hApp, -, liftTc⟩ := take_peel hApp hxtc
    have hxload : Event.providerInit p ∉
        (containerStep Event.loadProperties env.loadPropertiesFails
          Err.loadPropertiesError).1 := by
      rw [containerStep_fst]
      simp
    obtain ⟨-, hApp, -, liftLoad⟩ := take_peel hApp hxload
    have hxioc : Event.providerInit p ∉
        (containerStep Event.initIocContainer env.initIocFails
          Err.initIocError).1 := by
      rw [containerStep_fst]
      simp
    obtain ⟨-, hApp, hallIoc, liftIoc⟩ := take_peel hApp hxioc
    have hxinj : Event.providerInit p ∉
        (containerStep Event.injectDependencies env.injectFails
          Err.injectError).1 := by
      rw [containerStep_fst]
      simp
    obtain ⟨-, hApp, hallInj, liftInj⟩ := take_peel hApp hxinj
    have hxset : Event.providerInit p ∉
        (([Event.setAllFilePaths], (none : Option Err)) : StepResult).1 := by
      simp
    obtain ⟨-, hApp, -, liftSet⟩ := take_peel hApp hxset
    have hxval : Event.providerInit p ∉
        (containerStep Event.validateProviders env.validateProvidersFails
          Err.validateProvidersError).1 := by
      rw [containerStep_fst]
      simp
    obtain ⟨-, -, hallVal, -⟩ := take_peel hApp hxval
    refine ⟨?_, ?_, ?_⟩
    · apply liftT
      apply liftTc
      apply liftLoad
      apply liftIoc
      apply liftInj
      apply liftSet
      apply hallVal
      rw [containerStep_fst]
      simp
    · apply liftT
      apply liftTc
      apply liftLoad
      apply liftIoc
      apply hallInj
      rw [containerStep_fst]
      simp
    · apply liftT
      apply liftTc
      apply liftLoad
      apply hallIoc
      rw [containerStep_fst]
      simp
  · have hfD : ((handleSingletonComponentsLifeCycle env
        ComponentLifeCycle.Destruction).1.filter isProviderInitEvent)
        = [] := by
      apply List.filter_eq_nil_iff.mpr
      intro a ha
      unfold handleSingletonComponentsLifeCycle at ha
      obtain ⟨c, -, hc⟩ := mem_lifeCycleLoop_destroy ha
      rw [hc]
      simp [isProviderInitEvent]
    have hrun : (run env).1.filter isProviderInitEvent =
        (runBody env).1.filter isProviderInitEvent := by
      rw [run_fst, List.filter_append, hfD, List.append_nil]
    have hCS : ((stepSeq (initControllersLoop env.controllerFails
        env.controllers) (runServerStep env)).1.filter
        isProviderInitEvent) = [] := by
      apply List.filter_eq_nil_iff.mpr
      intro a ha
      rcases mem_stepSeq ha with ha | ha
      · obtain ⟨j, hj⟩ := mem_initControllersLoop ha
        rcases hj with hj | hj | hj <;> rw [hj] <;>
          simp [isProviderInitEvent]
      · rw [mem_runServerStep ha]
        simp [isProviderInitEvent]
    have hbodyApp : (runBody env).1.filter isProviderInitEvent =
        (initApp env).1.filter isProviderInitEvent := by
      rw [runBody_fst]
      cases hsApp : (initApp env).2 with
      | none =>
          rw [stepSeq_fst_of_none _ hsApp, List.filter_append, hCS,
            List.append_nil]
      | some e => rw [stepSeq_fst_of_some _ hsApp]
    by_cases hscan : env.scanFails = true
    · refine ⟨0, ?_⟩
      rw [hrun, hbodyApp, initApp_fst_scanFail env hscan]
      simp
    · replace hscan : env.scanFails = false := by simpa using hscan
      have happ1 : (initApp env).1 =
          registerAllEntitiesFromProviders env ++
            (registerAppEntities env.scannedClasses ++
              (registerEntityProviders env.entityProviders ++
                (initAppTail env).1)) := by
        rw [initApp_eq_tail env hscan]
      have hfA : (registerAllEntitiesFromProviders env).filter
          isProviderInitEvent = [] := by
        apply List.filter_eq_nil_iff.mpr
        intro a ha
        simp [entity_not_providerInit (mem_registerAllEntitiesFromProviders ha)]
      have hfB : (registerAppEntities env.scannedClasses).filter
          isProviderInitEvent = [] := by
        apply List.filter_eq_nil_iff.mpr
        intro a ha
        simp [entity_not_providerInit (mem_registerAppEntities ha)]
      have hfC : (registerEntityProviders env.entityProviders).filter
          isProviderInitEvent = [] := by
        apply List.filter_eq_nil_iff.mpr
        intro a ha
        simp [providerReg_not_providerInit (mem_registerEntityProviders ha)]
      obtain ⟨k, hk⟩ := filter_providerInit_initAppTail env
      refine ⟨k, ?_⟩
      rw [hrun, hbodyApp, happ1, List.filter_append, List.filter_append,
        List.filter_append, hfA, hfB, hfC, hk]
      simp

/-- C7 witness: the concrete one-provider run of `envC7w`, at the trace
prefix that first contains the provider's init hook. -/
theorem provider_init_after_validation_witness :
    Event.providerInit 7 ∈ ((run envC7w).1.take 8) ∧
      (Event.validateProviders ∈ ((run envC7w).1.take 8) ∧
        Event.injectDependencies ∈ ((run envC7w).1.take 8) ∧
        Event.initIocContainer ∈ ((run envC7w).1.take 8)) :=
  ⟨by decide, (provider_init_after_validation envC7w).1 8 7 (by decide)⟩

theorem count_registerEntityHandlers_self (e : EntityCls) (cat : Category) :
    (registerEntityHandlers e).count (registerEvent e cat) =
      if satisfies e cat then 1 else 0 := by
  obtain ⟨i, c1, c2, c3, c4⟩ := e
  cases cat <;> cases c1 <;> cases c2 <;> cases c3 <;> cases c4 <;>
    simp [registerEntityHandlers, satisfies, registerEvent,
      List.count_append, List.count_cons, beq_iff_eq]

theorem count_registerEntityHandlers_ne {e c : EntityCls} (cat : Category)
    (hne : c.id ≠ e.id) :
    (registerEntityHandlers c).count (registerEvent e cat) = 0 := by
  apply List.count_eq_zero.mpr
  intro hmem
  simp only [registerEntityHandlers, List.mem_append] at hmem
  rcases hmem with ((h | h) | h) | h <;>
    · have h' := mem_if_singleton h
      cases cat <;> simp [registerEvent] at h'
      all_goals exact hne (Eq.symm h')

theorem count_registerAppEntities_zero {l : List EntityCls} {e : EntityCls}
    (cat : Category) (h : ∀ c ∈ l, c.id ≠ e.id) :
    (registerAppEntities l).count (registerEvent e cat) = 0 := by
  induction l with
  | nil => rfl
  | cons c rest ih =>
      show ((registerEntityHandlers c ++ registerAppEntities rest).count _) = 0
      rw [List.count_append, count_registerEntityHandlers_ne cat (h c (by simp)),
        ih (fun c' hc' => h c' (by simp [hc']))]

theorem count_registerAppEntities (cat : Category) :
    ∀ (l : List EntityCls) (e : EntityCls), (l.map EntityCls.id).Nodup →
      e ∈ l →
      (registerAppEntities l).count (registerEvent e cat) =
        if satisfies e cat then 1 else 0 := by
  intro l
  induction l with
  | nil =>
      intro e _ he
      simp at he
  | cons c rest ih =>
      intro e hnd he
      rcases List.mem_cons.mp he with heq | hmem
      · subst heq
        have hnd' : (EntityCls.id e :: rest.map EntityCls.id).Nodup := by
          simpa using hnd
        have h1 := (List.nodup_cons.mp hnd').1
        have hrest : ∀ c' ∈ rest, c'.id ≠ e.id := fun c' hc' hid =>
          h1 (hid ▸ List.mem_map_of_mem EntityCls.id hc')
        show ((registerEntityHandlers e ++ registerAppEntities rest).count _) = _
        rw [List.count_append, count_registerEntityHandlers_self,
          count_registerAppEntities_zero cat hrest]
        simp
      · have hnd' : (EntityCls.id c :: rest.map EntityCls.id).Nodup := by
          simpa using hnd
        have hcne : c.id ≠ e.id := fun hid =>
          (List.nodup_cons.mp hnd').1
            (hid ▸ List.mem_map_of_mem EntityCls.id hmem)
        have hndrest : (rest.map EntityCls.id).Nodup :=
          (List.nodup_cons.mp hnd').2
        show ((registerEntityHandlers c ++ registerAppEntities rest).count _) = _
        rw [List.count_append, count_registerEntityHandlers_ne cat hcne,
          ih e hndrest hmem]
        simp

/-- C8: for every candidate entity with a distinct identity and each
capability category, classification registers the entity under that
category exactly once when it satisfies the category and not at all
otherwise — an entity satisfying several categories is registered once
under each matched category, and an entity satisfying no category
produces no registration at all (the dispatch is total: it raises no
error). -/
theorem entity_registered_once_per_category (classes : List EntityCls)
    (e : EntityCls) (cat : Category)
    (hnd : (classes.map EntityCls.id).Nodup) (he : e ∈ classes) :
    (registerAppEntities classes).count (registerEvent e cat) =
      (if satisfies e cat then 1 else 0) ∧
      ((∀ c, satisfies e c = false) → registerAppEntities [e] = []) := by
  refine ⟨count_registerAppEntities cat classes e hnd he, ?_⟩
  intro hz
  simp [registerAppEntities, registerEntityHandlers, hz]

/-- C8 witness: the two concrete classes of `c8classes` — the first
satisfies both `Component` and `RestController`. -/
theorem entity_registered_once_per_category_witness :
    ((c8classes.map EntityCls.id).Nodup ∧
      (⟨1, true, true, false, false⟩ : EntityCls) ∈ c8classes) ∧
      ((registerAppEntities c8classes).count
          (registerEvent ⟨1, true, true, false, false⟩
            Category.restController) =
        (if satisfies (⟨1, true, true, false, false⟩ : EntityCls)
            Category.restController then 1 else 0) ∧
        ((∀ c, satisfies (⟨1, true, true, false, false⟩ : EntityCls) c
            = false) →
          registerAppEntities [⟨1, true, true, false, false⟩] = [])) :=
  ⟨⟨by decide, by decide⟩,
    entity_registered_once_per_category c8classes
      ⟨1, true, true, false, false⟩ Category.restController
      (by decide) (by decide)⟩

/-- C9: under `Basic` severity a non-empty type-safety report is surfaced
as a warning and the bootstrap continues past the type-checking step:
with no other modelled fatal error and the server enabled, the run emits
the warning, goes on to load properties, reaches the server phase, and
raises nothing. -/
theorem basic_report_warns_and_continues (env : AppEnv)
    (hscan : env.scanFails = false)
    (hrep : env.typeCheckReport = true)
    (hmode : env.typeCheckingMode = TypeCheckingMode.Basic)
    (hload : env.loadPropertiesFails = false)
    (hioc : env.initIocFails = false)
    (hinjf : env.injectFails = false)
    (hvalf : env.validateProvidersFails = false)
    (hprov : ∀ p ∈ env.entityProviders, p.initFails = false)
    (hci : ∀ c ∈ env.singletonComponents, env.componentInitFails c = false)
    (hcd : ∀ c ∈ env.singletonComponents,
      env.componentDestroyFails c = false)
    (hctrl : ∀ k ∈ env.controllers, env.controllerFails k = false)
    (hsrv : env.serverEnabled = true)
    (hsf : env.serverFails = false) :
    Event.typeCheckWarn ∈ (run env).1 ∧
      Event.loadProperties ∈ (run env).1 ∧
      Event.runServer ∈ (run env).1 ∧ (run env).2 = none := by
  have htc := typeChecking_basic hrep hmode
  have hloadS := containerStep_of_ok Event.loadProperties
    Err.loadPropertiesError hload
  have hiocS := containerStep_of_ok Event.initIocContainer
    Err.initIocError hioc
  have hinjS := containerStep_of_ok Event.injectDependencies
    Err.injectError hinjf
  have hvalS := containerStep_of_ok Event.validateProviders
    Err.validateProvidersError hvalf
  have hprovS := initProviders_of_ok hprov
  have hlcI : handleSingletonComponentsLifeCycle env
      ComponentLifeCycle.Init =
      (env.singletonComponents.map Event.componentInit, none) := by
    unfold handleSingletonComponentsLifeCycle
    exact lifeCycleLoop_init_of_ok hci
  have hlcD : handleSingletonComponentsLifeCycle env
      ComponentLifeCycle.Destruction =
      (env.singletonComponents.map Event.componentDestroy, none) := by
    unfold handleSingletonComponentsLifeCycle
    exact lifeCycleLoop_destroy_of_ok hcd
  have hT2 : (initAppTail env).2 = none := by
    unfold initAppTail
    rw [htc, stepSeq_snd_mk_none, hloadS, stepSeq_snd_mk_none, hiocS,
      stepSeq_snd_mk_none, hinjS, stepSeq_snd_mk_none, stepSeq_snd_mk_none,
      hvalS, stepSeq_snd_mk_none, hprovS, stepSeq_snd_mk_none, hlcI]
  have happ1 : (initApp env).1 =
      registerAllEntitiesFromProviders env ++
        (registerAppEntities env.scannedClasses ++
          (registerEntityProviders env.entityProviders ++
            (initAppTail env).1)) := by
    rw [initApp_eq_tail env hscan]
  have hA2 : (initApp env).2 = none := by
    rw [initApp_eq_tail env hscan]
    exact hT2
  have hCS2 : (stepSeq (initControllersLoop env.controllerFails
      env.controllers) (runServerStep env)).2 = none :=
    stepSeq_snd_none_iff.mpr ⟨initControllersLoop_snd_of_ok hctrl,
      by rw [runServerStep_of_ok hsrv hsf]⟩
  have hrb2 : (runBody env).2 = none := by
    rw [runBody_snd]
    exact stepSeq_snd_none_iff.mpr ⟨hA2, hCS2⟩
  refine ⟨?_, ?_, ?_, ?_⟩
  · rw [run_fst]
    apply List.mem_append_left
    rw [runBody_fst]
    apply mem_stepSeq_left
    rw [happ1]
    refine List.mem_append_right _ (List.mem_append_right _
      (List.mem_append_right _ ?_))
    unfold initAppTail
    apply mem_stepSeq_left
    rw [htc]
    simp
  · rw [run_fst]
    apply List.mem_append_left
    rw [runBody_fst]
    apply mem_stepSeq_left
    rw [happ1]
    refine List.mem_append_right _ (List.mem_append_right _
      (List.mem_append_right _ ?_))
    unfold initAppTail
    apply mem_stepSeq_right (by rw [htc])
    apply mem_stepSeq_left
    rw [containerStep_fst]
    simp
  · rw [run_fst]
    apply List.mem_append_left
    rw [runBody_fst]
    apply mem_stepSeq_right hA2
    apply mem_stepSeq_right (initControllersLoop_snd_of_ok hctrl)
    rw [runServerStep_of_ok hsrv hsf]
    simp
  · rw [run_snd_of_destroy_none (by rw [hlcD]), hrb2]

/-- C9 witness: the concrete `Basic` run of `envC9w`. -/
theorem basic_report_warns_and_continues_witness :
    (envC9w.typeCheckReport = true ∧
      envC9w.typeCheckingMode = TypeCheckingMode.Basic ∧
      envC9w.serverEnabled = true) ∧
      (Event.typeCheckWarn ∈ (run envC9w).1 ∧
        Event.loadProperties ∈ (run envC9w).1 ∧
        Event.runServer ∈ (run envC9w).1 ∧ (run envC9w).2 = none) :=
  ⟨⟨by decide, by decide, by decide⟩,
    basic_report_warns_and_continues envC9w (by decide) (by decide)
      (by decide) (by decide) (by decide) (by decide) (by decide)
      (by decide) (by decide) (by decide) (by decide) (by decide)
      (by decide)⟩

/-- C10: when the configured severity is neither `Strict` nor `Basic`,
the type-safety gate is a no-op: a non-empty report causes neither an
abort nor a warning — the run is identical, event for event and in its
outcome, to the run with an empty report, and no warning event is ever
emitted. -/
theorem other_mode_gate_noop (env : AppEnv)
    (hmode : env.typeCheckingMode = TypeCheckingMode.Other) :
    run {env with typeCheckReport := true} =
      run {env with typeCheckReport := false} ∧
      Event.typeCheckWarn ∉ (run env).1 := by
  have h1 : typeChecking {env with typeCheckReport := true} = ([], none) :=
    typeChecking_other hmode
  have h2 : typeChecking {env with typeCheckReport := false} = ([], none) :=
    typeChecking_other hmode
  constructor
  · unfold run runBody initApp
    rw [h1, h2]
    rfl
  · intro hw
    rw [run_fst] at hw
    rcases List.mem_append.mp hw with hw | hw
    · rcases mem_runBody hw with hw | hw | hw
      · rcases mem_initApp_shape hw with
          h | h | h | h | h | h | h | h | h | ⟨c, hc⟩
        · simp [isRegisterEntityEvent] at h
        · simp [isProviderRegistrationEvent] at h
        · rw [typeChecking_other hmode] at h
          simp at h
        · simp at h
        · simp at h
        · simp at h
        · simp at h
        · simp at h
        · simp [isProviderInitEvent] at h
        · simp at hc
      · obtain ⟨j, hj⟩ := mem_initControllersLoop hw
        rcases hj with hj | hj | hj <;> simp at hj
      · have := mem_runServerStep hw
        simp at this
    · unfold handleSingletonComponentsLifeCycle at hw
      obtain ⟨c, -, hc⟩ := mem_lifeCycleLoop_destroy hw
      simp at hc

/-- C10 witness: the base environment with `Other` severity. -/
theorem other_mode_gate_noop_witness :
    baseEnv.typeCheckingMode = TypeCheckingMode.Other ∧
      (run {baseEnv with typeCheckReport := true} =
          run {baseEnv with typeCheckReport := false} ∧
        Event.typeCheckWarn ∉ (run baseEnv).1) :=
  ⟨by decide, other_mode_gate_noop baseEnv (by decide)⟩
